import Mathlib

/-!
Verification of the annotation overlay engine of the kai-layer-pdf-viewer
repository. The definitions below are shallow embeddings of the TypeScript
source: numbers are modelled as exact rationals, JS `Map` objects as
insertion-ordered association lists with unique keys, JS `Set` objects as
duplicate-free lists, and thrown exceptions as explicit outcome values.
-/

namespace PdfViewer

/-- Overlay record loaded from the JSON overlay file
(`types/annotations.ts`, interface `OverlayAnnotation`): a page label
(1-based, as a string), the text content, the flat list of coordinate
pairs describing a closed polygon in document space, and an integer
ordering key. The optional JSON-LD fields play no role in the verified
operations and are omitted. -/
structure OverlayAnnot where
  page : String
  content : String
  rect : List ℚ
  line : ℤ
deriving DecidableEq, Repr

/-- Document-space to raster-pixel-space conversion
(`usePdfAnnotations`, `convertCoordinates`): the source loop walks the flat
`rect` array two entries at a time and pushes the pair
`[rect[i] * effectiveDpi, rect[i+1] * effectiveDpi]`. For the even-length
flat pair lists of the data model this recursion produces exactly the same
point list as the indexed loop. -/
def convertCoordinates (rect : List ℚ) (effectiveDpi : ℚ) : List (ℚ × ℚ) :=
  match rect with
  | x :: y :: rest => (x * effectiveDpi, y * effectiveDpi) :: convertCoordinates rest effectiveDpi
  | _ => []

/-- Flatten a point list back into the flat coordinate-pair layout that
`convertCoordinates` consumes, for composing the transform with itself. -/
def flattenPoints : List (ℚ × ℚ) → List ℚ
  | [] => []
  | (x, y) :: rest => x :: y :: flattenPoints rest

theorem convertCoordinates_length (rect : List ℚ) (d : ℚ)
    (h : rect.length % 2 = 0) : 2 * (convertCoordinates rect d).length = rect.length := by
  match rect with
  | [] => simp [convertCoordinates]
  | [x] => simp at h
  | x :: y :: rest =>
      have hr : rest.length % 2 = 0 := by
        simp [List.length_cons] at h
        omega
      have ih := convertCoordinates_length rest d hr
      simp [convertCoordinates]
      omega

theorem convertCoordinates_get (rect : List ℚ) (d : ℚ) (k : ℕ) (x y : ℚ)
    (h : (convertCoordinates rect d).get? k = some (x, y)) :
    x = rect.getD (2 * k) 0 * d ∧ y = rect.getD (2 * k + 1) 0 * d := by
  match rect with
  | [] => simp [convertCoordinates] at h
  | [x0] => simp [convertCoordinates] at h
  | a :: b :: rest =>
      cases k with
      | zero =>
          simp [convertCoordinates] at h
          rcases h with ⟨h1, h2⟩
          simp [List.getD, h1, h2]
      | succ k =>
          have h' : (convertCoordinates rest d).get? k = some (x, y) := by
            simpa [convertCoordinates] using h
          have ih := convertCoordinates_get rest d k x y h'
          have e1 : 2 * (k + 1) = 2 * k + 1 + 1 := by ring
          rw [e1]
          simpa [List.getD_cons_succ] using ih

/-- C4. Document-space to raster-pixel-space conversion is a pure uniform
scale: for every flat coordinate-pair list `rect` and every effective DPI
`d > 0`, `convertCoordinates rect d` returns one output pair per input
coordinate pair, and the k-th output pair is exactly the k-th input pair
with both coordinates multiplied by `d` — no rotation, skew or
translation. -/
theorem C4_convertCoordinates_pure_uniform_scale
    (rect : List ℚ) (d : ℚ) (heven : rect.length % 2 = 0) (hd : 0 < d) :
    2 * (convertCoordinates rect d).length = rect.length ∧
    ∀ k x y, (convertCoordinates rect d).get? k = some (x, y) →
      x = rect.getD (2 * k) 0 * d ∧ y = rect.getD (2 * k + 1) 0 * d := by
  exact ⟨convertCoordinates_length rect d heven,
    fun k x y h => convertCoordinates_get rect d k x y h⟩

/-- Witness for C4 at the concrete rect [0,0,1,0,1,1,0,1] and DPI 96. -/
theorem C4_witness :
    ([(0 : ℚ), 0, 1, 0, 1, 1, 0, 1].length % 2 = 0) ∧ (0 : ℚ) < 96 ∧
    (2 * (convertCoordinates [(0 : ℚ), 0, 1, 0, 1, 1, 0, 1] 96).length
        = ([(0 : ℚ), 0, 1, 0, 1, 1, 0, 1]).length ∧
      ∀ k x y,
        (convertCoordinates [(0 : ℚ), 0, 1, 0, 1, 1, 0, 1] 96).get? k = some (x, y) →
          x = ([(0 : ℚ), 0, 1, 0, 1, 1, 0, 1]).getD (2 * k) 0 * 96 ∧
          y = ([(0 : ℚ), 0, 1, 0, 1, 1, 0, 1]).getD (2 * k + 1) 0 * 96) :=
  ⟨by decide, by norm_num,
    C4_convertCoordinates_pure_uniform_scale _ _ (by decide) (by norm_num)⟩

theorem convertCoordinates_comp (rect : List ℚ) (z1 z2 : ℚ) :
    convertCoordinates (flattenPoints (convertCoordinates rect z1)) z2
      = convertCoordinates rect (z1 * z2) := by
  match rect with
  | [] => simp [convertCoordinates, flattenPoints]
  | [x0] => simp [convertCoordinates, flattenPoints]
  | a :: b :: rest =>
      have ih := convertCoordinates_comp rest z1 z2
      simp [convertCoordinates, flattenPoints, ih, mul_assoc, mul_comm, mul_left_comm]

/-- C5. Transform composition: applying the document-to-raster transform
with factor z1 and then again with factor z2 equals applying it once with
factor z1 * z2. Over the exact rationals of this model the equality is
exact, hence in particular within any floating-point tolerance. -/
theorem C5_transform_composition
    (rect : List ℚ) (z1 z2 : ℚ) (heven : rect.length % 2 = 0) :
    convertCoordinates (flattenPoints (convertCoordinates rect z1)) z2
      = convertCoordinates rect (z1 * z2) := by
  exact convertCoordinates_comp rect z1 z2

/-- Witness for C5 at rect [1,2,3,4] with zoom factors 2 and 3. -/
theorem C5_witness :
    ([(1 : ℚ), 2, 3, 4].length % 2 = 0) ∧
    convertCoordinates (flattenPoints (convertCoordinates [(1 : ℚ), 2, 3, 4] 2)) 3
      = convertCoordinates [(1 : ℚ), 2, 3, 4] (2 * 3) :=
  ⟨by decide, C5_transform_composition [(1 : ℚ), 2, 3, 4] 2 3 (by decide)⟩

/-- Pair up a flat coordinate list, mirroring the two-at-a-time index
stepping that `isPointInPolygon` and `convertCoordinates` perform on the
flat `number[]` arrays. -/
def pairUp : List ℚ → List (ℚ × ℚ)
  | x :: y :: rest => (x, y) :: pairUp rest
  | _ => []

/-- Rotate a list one position to the right, so that `pts.zip (rotateRight
pts)` lists the pairs (current vertex, previous vertex) with the previous
index `j` starting at the last vertex — exactly the `i`/`j` stepping of the
ray-casting loop in `isPointInPolygon`. -/
def rotateRight (l : List (ℚ × ℚ)) : List (ℚ × ℚ) :=
  match l.reverse with
  | [] => []
  | x :: rest => x :: rest.reverse

/-- One iteration of the ray-casting loop body of `isPointInPolygon`
(PDFViewer component): the edge from the previous vertex `(xj, yj)` to the
current vertex `(xi, yi)` crosses the horizontal ray from the query point
when the vertices straddle the ray and the crossing lies to the right of
the point. The guard `(yi > y) != (yj > y)` guarantees `yj - yi ≠ 0`. -/
def edgeCrosses (x y : ℚ) (e : (ℚ × ℚ) × (ℚ × ℚ)) : Bool :=
  let xi := e.1.1
  let yi := e.1.2
  let xj := e.2.1
  let yj := e.2.2
  (decide (yi > y) != decide (yj > y)) && decide (x < (xj - xi) * (y - yi) / (yj - yi) + xi)

/-- Ray-casting point-in-polygon test from the PDFViewer component
(`isPointInPolygon`): fold over all edges, toggling the `inside` flag on
every crossing, starting from `false`. -/
def isPointInPolygon (x y : ℚ) (polygon : List ℚ) : Bool :=
  let pts := pairUp polygon
  (pts.zip (rotateRight pts)).foldl
    (fun inside e => if edgeCrosses x y e then !inside else inside) false

/-- Entry of the page-scoped hit-test index `annotationPaths`: the map key,
the stored polygon path in raster-pixel space (the `Path2D` of the source,
modelled as its flat vertex list), and the overlay record itself. -/
structure HitEntry where
  key : String
  path : List ℚ
  annot : OverlayAnnot
deriving DecidableEq, Repr

/-- Map key used by `drawAnnotations` for one overlay record. -/
def annotKey (a : OverlayAnnot) : String :=
  "annotation-" ++ a.page ++ "-" ++ toString a.line

/-- Page filter of `getAnnotationsForPage`: keep records whose `page` label
equals the 1-based page number rendered as a string. -/
def getAnnotsForPage (anns : List OverlayAnnot) (pageNumber : ℕ) : List OverlayAnnot :=
  anns.filter (fun a => a.page == toString (pageNumber + 1))

/-- Polygon path built by `createAnnotationPath`: the converted points,
closed by `closePath`, here kept as the flat vertex list in raster space. -/
def createAnnotPath (rect : List ℚ) (effectiveDpi : ℚ) : List ℚ :=
  flattenPoints (convertCoordinates rect effectiveDpi)

/-- Hit-test index rebuild of `drawAnnotations`: the previous index is
cleared and one entry per current-page record is stored, in the order the
records appear in the overlay list. No degeneracy filter is applied. -/
def drawAnnots (anns : List OverlayAnnot) (pageNumber : ℕ) (effectiveDpi : ℚ) :
    List HitEntry :=
  (getAnnotsForPage anns pageNumber).map
    (fun a => ⟨annotKey a, createAnnotPath a.rect effectiveDpi, a⟩)

/-- Hit test of `getAnnotationAtPoint`: linear scan over the stored
entries in insertion order, first path containing the point wins, `none`
otherwise. Point containment is modelled by the repository's own
`isPointInPolygon` ray-casting routine; the `ctx.isPointInPath` canvas API
the composable calls is external to the repository. -/
def getAnnotAtPoint (index : List HitEntry) (x y : ℚ) : Option OverlayAnnot :=
  match index.find? (fun e => isPointInPolygon x y e.path) with
  | some e => some e.annot
  | none => none

theorem getAnnotAtPoint_first (pre : List HitEntry) (e : HitEntry)
    (post : List HitEntry) (x y : ℚ)
    (hpre : ∀ f ∈ pre, isPointInPolygon x y f.path = false)
    (he : isPointInPolygon x y e.path = true) :
    getAnnotAtPoint (pre ++ e :: post) x y = some e.annot := by
  induction pre with
  | nil => simp [getAnnotAtPoint, List.find?, he]
  | cons f fs ih =>
      have hf := hpre f (by simp)
      have hfs : ∀ g ∈ fs, isPointInPolygon x y g.path = false :=
        fun g hg => hpre g (by simp [hg])
      simpa [getAnnotAtPoint, List.find?, hf] using ih hfs

theorem getAnnotAtPoint_miss (index : List HitEntry) (x y : ℚ)
    (h : ∀ f ∈ index, isPointInPolygon x y f.path = false) :
    getAnnotAtPoint index x y = none := by
  induction index with
  | nil => simp [getAnnotAtPoint]
  | cons f fs ih =>
      have hf := h f (by simp)
      have hfs : ∀ g ∈ fs, isPointInPolygon x y g.path = false :=
        fun g hg => h g (by simp [hg])
      simpa [getAnnotAtPoint, List.find?, hf] using ih hfs

/-- Example overlay record of the spec: unit square in document space. -/
def squareAnnot : OverlayAnnot :=
  { page := "1", content := "cell", rect := [0, 0, 1, 0, 1, 1, 0, 1], line := 1 }

/-- C6. Hit testing: a point strictly inside a stored transformed polygon
returns that polygon's record (the first containing entry in insertion
order when several contain the point), a point outside all stored polygons
returns none, and for rect [0,0,1,0,1,1,0,1] at effective DPI 96 the
stored polygon has corners (0,0),(96,0),(96,96),(0,96), point (48,48)
hits and point (200,200) misses. -/
theorem C6_hit_test
    (index pre post : List HitEntry) (e : HitEntry) (x y : ℚ) :
    ((∀ f ∈ pre, isPointInPolygon x y f.path = false) →
      isPointInPolygon x y e.path = true →
      getAnnotAtPoint (pre ++ e :: post) x y = some e.annot) ∧
    ((∀ f ∈ index, isPointInPolygon x y f.path = false) →
      getAnnotAtPoint index x y = none) ∧
    (drawAnnots [squareAnnot] 0 96).map HitEntry.path = [[0, 0, 96, 0, 96, 96, 0, 96]] ∧
    getAnnotAtPoint (drawAnnots [squareAnnot] 0 96) 48 48 = some squareAnnot ∧
    getAnnotAtPoint (drawAnnots [squareAnnot] 0 96) 200 200 = none := by
  refine ⟨fun hpre he => getAnnotAtPoint_first pre e post x y hpre he,
    fun h => getAnnotAtPoint_miss index x y h, ?_, ?_, ?_⟩
  · norm_num [drawAnnots, getAnnotsForPage, squareAnnot, createAnnotPath, convertCoordinates,
      flattenPoints, List.filter, show ("1" == toString (1 : ℕ)) = true from rfl]
  · norm_num [getAnnotAtPoint, drawAnnots, getAnnotsForPage, squareAnnot, createAnnotPath,
      convertCoordinates, flattenPoints, List.filter, List.find?, isPointInPolygon, pairUp,
      rotateRight, edgeCrosses, annotKey, show ("1" == toString (1 : ℕ)) = true from rfl]
  · norm_num [getAnnotAtPoint, drawAnnots, getAnnotsForPage, squareAnnot, createAnnotPath,
      convertCoordinates, flattenPoints, List.filter, List.find?, isPointInPolygon, pairUp,
      rotateRight, edgeCrosses, annotKey, show ("1" == toString (1 : ℕ)) = true from rfl]

/-- Witness for C6: the universally quantified conjuncts applied at a
concrete index containing only the transformed unit square. -/
theorem C6_witness :
    getAnnotAtPoint ([] ++ (⟨annotKey squareAnnot, createAnnotPath squareAnnot.rect 96,
        squareAnnot⟩ : HitEntry) :: []) 48 48 = some squareAnnot ∧
    getAnnotAtPoint (drawAnnots [squareAnnot] 0 96) 200 200 = none := by
  have h := C6_hit_test (drawAnnots [squareAnnot] 0 96) [] []
    (⟨annotKey squareAnnot, createAnnotPath squareAnnot.rect 96, squareAnnot⟩ : HitEntry) 48 48
  refine ⟨h.1 (by intro f hf; simp at hf) ?_, h.2.2.2.2⟩
  norm_num [isPointInPolygon, createAnnotPath, squareAnnot, convertCoordinates, flattenPoints,
    pairUp, rotateRight, edgeCrosses]

namespace Registry

/-- Provider record of the current composable (`usePdfAnnotations` with the
global singleton registry): id, display name and the `canHandle` predicate.
This revision of the interface carries no priority field. The `render` and
`createOverlay` behaviours are modelled separately where a claim needs
them. -/
structure Provider where
  id : String
  name : String
  canHandle : OverlayAnnot → Bool

/-- The reserved built-in provider: `canHandle` is always true and it can
never be unregistered. -/
def defaultProvider : Provider :=
  { id := "default", name := "Default Text Renderer", canHandle := fun _ => true }

/-- Global singleton registry state: the `Map` of registered providers
(insertion-ordered, unique ids) and the `Set` of active provider ids. -/
structure State where
  providers : List Provider
  active : List String

/-- State after module initialisation: the default provider is registered
and active. -/
def initialState : State :=
  { providers := [defaultProvider], active := ["default"] }

/-- Id derivation of `registerAnnotationProvider` when no id is supplied:
lowercase the name and replace every character outside a-z and 0-9 with a
dash (the source regex replace with /[^a-z0-9]/g). -/
def deriveId (name : String) : String :=
  String.mk (name.data.map (fun c =>
    let lc := c.toLower
    if (('a' ≤ lc) ∧ (lc ≤ 'z')) ∨ (('0' ≤ lc) ∧ (lc ≤ '9')) then lc else '-'))

/-- JS `Map.set` semantics: overwrite in place when the key exists
(preserving its insertion position), append otherwise. -/
def mapSet (l : List Provider) (p : Provider) : List Provider :=
  match l with
  | [] => [p]
  | q :: qs => if q.id = p.id then p :: qs else q :: mapSet qs p

/-- JS `Set.add` semantics on the duplicate-free active-id list. -/
def addToSet (s : List String) (id : String) : List String :=
  if s.contains id then s else s ++ [id]

/-- JS `Map.delete` semantics: remove the (unique) entry with the key. -/
def eraseById (l : List Provider) (pid : String) : List Provider :=
  match l with
  | [] => []
  | q :: qs => if q.id = pid then qs else q :: eraseById qs pid

/-- JS `Set.delete` semantics. -/
def eraseStr (l : List String) (s : String) : List String :=
  match l with
  | [] => []
  | q :: qs => if q = s then qs else q :: eraseStr qs s

/-- Registration options: the id is optional and derived from the name
when absent. -/
structure ProviderOptions where
  id : Option String
  name : String
  canHandle : OverlayAnnot → Bool

/-- The `registerAnnotationProvider` operation: compute the id, store the
provider in the map (overwriting an existing entry with the same id) and
add the id to the active set. -/
def registerAnnotationProvider (st : State) (o : ProviderOptions) : State :=
  let pid := o.id.getD (deriveId o.name)
  { providers := mapSet st.providers ⟨pid, o.name, o.canHandle⟩,
    active := addToSet st.active pid }

/-- Logged outcome of `unregisterAnnotationProvider`. -/
inductive UnregisterResult where
  | removed
  | warnedDefault
  | warnedNotFound
deriving DecidableEq, Repr

/-- The `unregisterAnnotationProvider` operation: refuse for "default"
(warning, no change); otherwise delete from the `Map`, warning without any
state change when the id is unknown. The active set is not touched. -/
def unregisterAnnotationProvider (st : State) (pid : String) : State × UnregisterResult :=
  if pid = "default" then (st, .warnedDefault)
  else if st.providers.any (fun p => p.id == pid) then
    ({ st with providers := eraseById st.providers pid }, .removed)
  else (st, .warnedNotFound)

/-- The `toggleProvider` operation, translated exactly from the source:
"default" is refused; an active id is passed to
`unregisterAnnotationProvider` (which deletes it from the provider map) and
then removed from the active set; an inactive id is looked up in the map,
re-registered and re-added to the active set when found. -/
def toggleProvider (st : State) (pid : String) : State :=
  if pid = "default" then st
  else if st.active.contains pid then
    let st1 := (unregisterAnnotationProvider st pid).1
    { st1 with active := eraseStr st1.active pid }
  else
    match st.providers.find? (fun p => p.id == pid) with
    | some p =>
        let st1 := registerAnnotationProvider st ⟨some p.id, p.name, p.canHandle⟩
        { st1 with active := addToSet st1.active pid }
    | none => st

/-- Inner loop of the resolver: walk the custom (non-default) providers in
registration order, returning the first that is active and can handle the
record; fall back to the built-in default provider. -/
def findCustomLoop (active : List String) (a : OverlayAnnot) : List Provider → Provider
  | [] => defaultProvider
  | p :: ps =>
      if active.contains p.id && p.canHandle a then p else findCustomLoop active a ps

/-- The resolver (source name `findProviderForAnnotation`): filter out the
default provider, then scan in registration order. -/
def findProviderForAnnot (st : State) (a : OverlayAnnot) : Provider :=
  findCustomLoop st.active a (st.providers.filter (fun p => p.id != "default"))

theorem findCustomLoop_eq_find? (active : List String) (a : OverlayAnnot)
    (l : List Provider) :
    findCustomLoop active a (l.filter (fun p => p.id != "default"))
      = (l.find? (fun p => p.id != "default" && active.contains p.id
          && p.canHandle a)).getD defaultProvider := by
  induction l with
  | nil => simp [findCustomLoop]
  | cons p ps ih =>
      by_cases hdef : p.id = "default"
      · simp [List.filter_cons, List.find?_cons, bne_iff_ne, hdef, ih]
      · by_cases hact : p.id ∈ active
        · by_cases hch : p.canHandle a = true
          · simp [List.filter_cons, List.find?_cons, findCustomLoop, bne_iff_ne,
              hdef, hact, hch]
          · simp [List.filter_cons, List.find?_cons, findCustomLoop, bne_iff_ne,
              hdef, hact, hch, ih]
        · simp [List.filter_cons, List.find?_cons, findCustomLoop, bne_iff_ne,
            hdef, hact, ih]

end Registry

namespace LegacyRegistry

/-- Provider record of the earlier per-instance composable
(`composables/usePdfAnnotations.ts`): this revision carries an explicit
integer priority (registration stores `options.priority || 0`). -/
structure Provider where
  id : String
  priority : ℤ
  canHandle : OverlayAnnot → Bool

/-- The built-in default provider of the legacy composable: priority 0,
handles everything, never stored in the provider map. -/
def defaultProvider : Provider :=
  { id := "default", priority := 0, canHandle := fun _ => true }

/-- Insert a provider into a descending-priority list, before the first
entry whose priority is less than or equal to its own. -/
def insertDesc (p : Provider) : List Provider → List Provider
  | [] => [p]
  | q :: qs => if q.priority ≤ p.priority then p :: q :: qs else q :: insertDesc p qs

/-- Stable descending sort by priority. The source sorts the registered
providers with the stable JS `Array.sort` and comparator
`(b.priority || 0) - (a.priority || 0)`; any stable sort for that
comparator produces this unique list, so an insertion sort that keeps
earlier-registered providers ahead of later equal-priority ones models it
exactly. -/
def sortByPriorityDesc : List Provider → List Provider
  | [] => []
  | p :: ps => insertDesc p (sortByPriorityDesc ps)

/-- The legacy `getAllProviders`: registered providers, sorted by priority
descending (ties in registration order). -/
def getAllProviders (ps : List Provider) : List Provider :=
  sortByPriorityDesc ps

/-- Scan of the legacy `findProviderForAnnotation` body: first provider in
the sorted list whose `canHandle` is true, else the default provider. -/
def findLoop (a : OverlayAnnot) : List Provider → Provider
  | [] => defaultProvider
  | p :: ps => if p.canHandle a then p else findLoop a ps

/-- The legacy resolver (source name `findProviderForAnnotation`). -/
def findProviderForAnnot (ps : List Provider) (a : OverlayAnnot) : Provider :=
  findLoop a (getAllProviders ps)

/-- Modelled from the spec: the resolution policy stated in the
specification — scan providers, preferring the highest priority and
breaking priority ties by registration order, pick the first matching
provider, and fall back to the default provider when none matches. Defined
directly on the registration-ordered list so the theorem comparing it with
the sorted-scan implementation is a genuine refinement statement. -/
def bestBySpec (a : OverlayAnnot) : List Provider → Option Provider
  | [] => none
  | p :: ps =>
      match bestBySpec a ps with
      | none => if p.canHandle a then some p else none
      | some r => if p.canHandle a ∧ r.priority ≤ p.priority then some p else some r

/-- Modelled from the spec: full resolution including the default
fallback. -/
def resolveBySpecPriority (ps : List Provider) (a : OverlayAnnot) : Provider :=
  (bestBySpec a ps).getD defaultProvider

/-- Descending-priority sortedness invariant. -/
def SortedDesc (l : List Provider) : Prop :=
  l.Pairwise (fun p q => q.priority ≤ p.priority)

theorem mem_insertDesc {r p : Provider} {l : List Provider} :
    r ∈ insertDesc p l ↔ r = p ∨ r ∈ l := by
  induction l with
  | nil => simp [insertDesc]
  | cons q qs ih =>
      by_cases h : q.priority ≤ p.priority <;>
        simp only [insertDesc, h, if_true, if_false, List.mem_cons, ih, ite_true,
          ite_false] <;> tauto

theorem insertDesc_sortedDesc (p : Provider) (l : List Provider)
    (hl : SortedDesc l) : SortedDesc (insertDesc p l) := by
  induction l with
  | nil => simp [insertDesc, SortedDesc]
  | cons q qs ih =>
      rcases List.pairwise_cons.mp hl with ⟨hq, hqs⟩
      by_cases h : q.priority ≤ p.priority
      · rw [SortedDesc, insertDesc, if_pos h]
        refine List.pairwise_cons.mpr ⟨?_, hl⟩
        intro r hr
        rcases List.mem_cons.mp hr with rfl | hr
        · exact h
        · exact le_trans (hq r hr) h
      · rw [SortedDesc, insertDesc, if_neg h]
        refine List.pairwise_cons.mpr ⟨?_, ih hqs⟩
        intro r hr
        rcases mem_insertDesc.mp hr with rfl | hr
        · exact le_of_lt (lt_of_not_le h)
        · exact hq r hr

theorem sortByPriorityDesc_sorted (ps : List Provider) :
    SortedDesc (sortByPriorityDesc ps) := by
  induction ps with
  | nil => simp [sortByPriorityDesc, SortedDesc]
  | cons p ps ih => exact insertDesc_sortedDesc p _ ih

theorem find?_insertDesc (p : Provider) (l : List Provider) (P : Provider → Bool)
    (hl : SortedDesc l) :
    (insertDesc p l).find? P =
      match l.find? P with
      | some r => if P p ∧ r.priority ≤ p.priority then some p else some r
      | none => if P p then some p else none := by
  induction l with
  | nil => cases hp : P p <;> simp [insertDesc, List.find?_cons, hp]
  | cons q qs ih =>
      rcases List.pairwise_cons.mp hl with ⟨hq, hqs⟩
      by_cases h : q.priority ≤ p.priority
      · rw [insertDesc, if_pos h]
        by_cases hp : P p = true
        · rw [List.find?_cons_of_pos _ hp]
          cases hfind : (q :: qs).find? P with
          | none => simp [hp]
          | some r =>
              have hrmem := List.mem_of_find?_eq_some hfind
              have hrpri : r.priority ≤ p.priority := by
                rcases List.mem_cons.mp hrmem with rfl | hr
                · exact h
                · exact le_trans (hq r hr) h
              simp [hp, hrpri]
        · rw [List.find?_cons_of_neg _ (by simpa using hp)]
          cases hfind : (q :: qs).find? P with
          | none => simp [hp]
          | some r => simp [hp]
      · rw [insertDesc, if_neg h]
        by_cases hpq : P q = true
        · rw [List.find?_cons_of_pos _ hpq, List.find?_cons_of_pos _ hpq]
          have : ¬(P p ∧ q.priority ≤ p.priority) := fun hc => h hc.2
          simp [this]
        · rw [List.find?_cons_of_neg _ (by simpa using hpq),
            List.find?_cons_of_neg _ (by simpa using hpq)]
          exact ih hqs

theorem sort_find?_eq_bestBySpec (a : OverlayAnnot) (ps : List Provider) :
    (sortByPriorityDesc ps).find? (fun p => p.canHandle a) = bestBySpec a ps := by
  induction ps with
  | nil => simp [sortByPriorityDesc, bestBySpec]
  | cons p ps ih =>
      rw [sortByPriorityDesc, find?_insertDesc _ _ _ (sortByPriorityDesc_sorted ps), ih,
        bestBySpec]
      cases hb : bestBySpec a ps <;> simp

theorem findLoop_eq_find? (a : OverlayAnnot) (l : List Provider) :
    findLoop a l = (l.find? (fun p => p.canHandle a)).getD defaultProvider := by
  induction l with
  | nil => simp [findLoop]
  | cons p ps ih =>
      by_cases hp : p.canHandle a = true
      · simp [findLoop, hp, List.find?_cons_of_pos _ hp]
      · rw [findLoop, if_neg (by simpa using hp),
          List.find?_cons_of_neg _ (by simpa using hp)]
        exact ih

end LegacyRegistry

/-- C1. Provider resolution. For the current (global-registry) composable:
for every registry state and every record, the resolver considers only
currently active providers excluding "default" and returns the first such
provider, in the registry's registration order, whose canHandle is true,
falling back to the "default" provider when none matches — this revision
carries no priority field, so priority order with registration-order
tie-breaking coincides with registration order. For the legacy
per-instance composable, which does carry priorities: the resolver equals
the spec policy of scanning in priority order with ties broken by
registration order, first canHandle winner, default when none matches. -/
theorem C1_provider_resolution :
    (∀ (st : Registry.State) (a : OverlayAnnot),
      Registry.findProviderForAnnot st a
        = (st.providers.find? (fun p => p.id != "default" && st.active.contains p.id
            && p.canHandle a)).getD Registry.defaultProvider) ∧
    (∀ (ps : List LegacyRegistry.Provider) (a : OverlayAnnot),
      LegacyRegistry.findProviderForAnnot ps a
        = LegacyRegistry.resolveBySpecPriority ps a) := by
  constructor
  · intro st a
    exact Registry.findCustomLoop_eq_find? st.active a st.providers
  · intro ps a
    unfold LegacyRegistry.findProviderForAnnot LegacyRegistry.resolveBySpecPriority
      LegacyRegistry.getAllProviders
    rw [LegacyRegistry.findLoop_eq_find?, LegacyRegistry.sort_find?_eq_bestBySpec]

/-- Concrete registered custom provider used to exercise `toggleProvider`. -/
def providerX : Registry.Provider :=
  { id := "x", name := "X Provider", canHandle := fun _ => true }

/-- Registry state with the default provider plus one registered and
active custom provider. -/
def toggleState : Registry.State :=
  { providers := [Registry.defaultProvider, providerX], active := ["default", "x"] }

/-- C3. The claim (and the specification) say deactivating a registered
provider merely clears its active flag and leaves it registered; the code
disagrees: `toggleProvider` on an active provider calls
`unregisterAnnotationProvider`, which deletes the provider from the map,
so the registered-id set shrinks — and a second toggle cannot restore the
provider because the re-register branch looks the id up in the map it was
just deleted from. -/
theorem C3_toggle_unregisters_provider :
    toggleState.providers.map Registry.Provider.id = ["default", "x"] ∧
    (Registry.toggleProvider toggleState "x").providers.map Registry.Provider.id
      = ["default"] ∧
    (Registry.toggleProvider (Registry.toggleProvider toggleState "x") "x").providers.map
      Registry.Provider.id = ["default"] ∧
    (Registry.toggleProvider (Registry.toggleProvider toggleState "x") "x").active.contains
      "x" = false := by
  refine ⟨rfl, ?_, ?_, ?_⟩ <;> rfl

/-- C8. Unregistering the reserved "default" provider is rejected with a
warning and leaves the registry state unchanged; unregistering an unknown
id produces only the not-found warning and also leaves the state
unchanged. -/
theorem C8_unregister_rejections (st : Registry.State) (pid : String)
    (hne : pid ≠ "default") (hunknown : ∀ p ∈ st.providers, p.id ≠ pid) :
    Registry.unregisterAnnotationProvider st "default"
        = (st, Registry.UnregisterResult.warnedDefault) ∧
    Registry.unregisterAnnotationProvider st pid
        = (st, Registry.UnregisterResult.warnedNotFound) := by
  constructor
  · simp [Registry.unregisterAnnotationProvider]
  · have hany : st.providers.any (fun p => p.id == pid) = false := by
      rw [Bool.eq_false_iff]
      intro hc
      rcases List.any_eq_true.mp hc with ⟨p, hp, hpe⟩
      exact hunknown p hp (by simpa using hpe)
    simp [Registry.unregisterAnnotationProvider, hne, hany]

/-- Witness for C8 at the initial registry state and the unknown id
"ghost". -/
theorem C8_witness :
    Registry.unregisterAnnotationProvider Registry.initialState "default"
        = (Registry.initialState, Registry.UnregisterResult.warnedDefault) ∧
    Registry.unregisterAnnotationProvider Registry.initialState "ghost"
        = (Registry.initialState, Registry.UnregisterResult.warnedNotFound) :=
  C8_unregister_rejections Registry.initialState "ghost" (by decide)
    (by intro p hp; rcases List.mem_cons.mp hp with rfl | hp
        · decide
        · simp at hp)

theorem addToSet_contains (s : List String) (id : String) :
    (Registry.addToSet s id).contains id = true := by
  by_cases h : id ∈ s
  · simp [Registry.addToSet, h]
  · simp [Registry.addToSet, h]

theorem mapSet_find? (l : List Registry.Provider) (p : Registry.Provider) :
    (Registry.mapSet l p).find? (fun q => q.id == p.id) = some p := by
  induction l with
  | nil => simp [Registry.mapSet, List.find?_cons]
  | cons q qs ih =>
      by_cases h : q.id = p.id
      · simp [Registry.mapSet, h, List.find?_cons]
      · simp [Registry.mapSet, h, List.find?_cons, ih]

theorem mapSet_map_id (l : List Registry.Provider) (p : Registry.Provider)
    (h : ∃ q ∈ l, q.id = p.id) :
    (Registry.mapSet l p).map Registry.Provider.id = l.map Registry.Provider.id := by
  induction l with
  | nil => simp at h
  | cons q qs ih =>
      by_cases hq : q.id = p.id
      · simp [Registry.mapSet, hq]
      · rcases h with ⟨r, hr, hrid⟩
        rcases List.mem_cons.mp hr with rfl | hr
        · exact absurd hrid hq
        · simp [Registry.mapSet, hq, ih ⟨r, hr, hrid⟩]

/-- C10. Registering a provider immediately activates it: after
`registerAnnotationProvider` the provider's id (given explicitly, or
derived from the name by lowercasing and replacing every character outside
a-z and 0-9 with a dash) is in the active set, the registry maps that id
to the newly supplied provider, and registering over an already present id
overwrites in place, leaving the registered-id list unchanged. -/
theorem C10_register_activates (st : Registry.State) (o : Registry.ProviderOptions)
    (pid : String) (hpid : pid = o.id.getD (Registry.deriveId o.name)) :
    ((Registry.registerAnnotationProvider st o).active.contains pid = true) ∧
    ((Registry.registerAnnotationProvider st o).providers.find? (fun q => q.id == pid)
        = some ⟨pid, o.name, o.canHandle⟩) ∧
    ((∃ q ∈ st.providers, q.id = pid) →
      (Registry.registerAnnotationProvider st o).providers.map Registry.Provider.id
        = st.providers.map Registry.Provider.id) := by
  subst hpid
  refine ⟨?_, ?_, fun h => ?_⟩
  · simpa [Registry.registerAnnotationProvider] using
      addToSet_contains st.active (o.id.getD (Registry.deriveId o.name))
  · simpa [Registry.registerAnnotationProvider] using
      mapSet_find? st.providers ⟨o.id.getD (Registry.deriveId o.name), o.name, o.canHandle⟩
  · simpa [Registry.registerAnnotationProvider] using
      mapSet_map_id st.providers
        ⟨o.id.getD (Registry.deriveId o.name), o.name, o.canHandle⟩ h

/-- Options without an explicit id, exercising derivation from the name. -/
def exOptions : Registry.ProviderOptions :=
  { id := none, name := "My Provider!", canHandle := fun _ => false }

/-- State that already holds a provider under the derived id, exercising
the overwrite path. -/
def overwriteState : Registry.State :=
  { providers := [Registry.defaultProvider,
      ⟨"my-provider-", "Old Provider", fun _ => true⟩],
    active := ["default"] }

/-- Witness for C10: id derivation from "My Provider!", immediate
activation and in-place overwrite at a concrete state. -/
theorem C10_witness :
    Registry.deriveId "My Provider!" = "my-provider-" ∧
    ((Registry.registerAnnotationProvider overwriteState exOptions).active.contains
        "my-provider-" = true) ∧
    ((Registry.registerAnnotationProvider overwriteState exOptions).providers.find?
        (fun q => q.id == "my-provider-")
        = some ⟨"my-provider-", exOptions.name, exOptions.canHandle⟩) ∧
    ((Registry.registerAnnotationProvider overwriteState exOptions).providers.map
        Registry.Provider.id = overwriteState.providers.map Registry.Provider.id) := by
  have h := C10_register_activates overwriteState exOptions "my-provider-" (by decide)
  exact ⟨by decide, h.1, h.2.1, h.2.2 ⟨⟨"my-provider-", "Old Provider", fun _ => true⟩,
    by simp [overwriteState], rfl⟩⟩

/-- Result of one provider-dispatch attempt of `drawAnnotationText`
(current composable): how many recovery invocations of the default
provider's render ran, whether any exception escaped the dispatch, and
which errors were logged. Thrown render errors are modelled by the Bool
inputs below. -/
structure DispatchResult where
  fallbackCalls : ℕ
  escaped : Bool
  loggedProviderError : Bool
  loggedDefaultFailure : Bool
deriving DecidableEq, Repr

/-- Provider dispatch of `drawAnnotationText`: try the resolved provider's
render; on a throw log a warning and, when the provider is not "default"
and the fallback debug flag is off, try the default provider's render
exactly once inside its own try/catch whose handler only logs; when the
flag is on, only log. No path rethrows. -/
def dispatchRender (providerId : String)
    (providerThrows disableFallback defaultThrows : Bool) : DispatchResult :=
  if providerThrows then
    if providerId != "default" && !disableFallback then
      if defaultThrows then
        { fallbackCalls := 1, escaped := false,
          loggedProviderError := true, loggedDefaultFailure := true }
      else
        { fallbackCalls := 1, escaped := false,
          loggedProviderError := true, loggedDefaultFailure := false }
    else
      { fallbackCalls := 0, escaped := false,
        loggedProviderError := true, loggedDefaultFailure := false }
  else
    { fallbackCalls := 0, escaped := false,
      loggedProviderError := false, loggedDefaultFailure := false }

/-- C2. Render fallback is a bounded retry: when the resolved provider's
render throws, the provider is not "default" and fallback is not disabled,
the default provider's render is invoked exactly once as recovery; a
second failure (of "default") is only logged while the fallback count
stays one; and for every input no exception escapes the dispatch. -/
theorem C2_render_fallback (pid : String) (pThrows dis dThrows : Bool)
    (h1 : pThrows = true) (h2 : pid ≠ "default") (h3 : dis = false) :
    (dispatchRender pid pThrows dis dThrows).fallbackCalls = 1 ∧
    (dThrows = true →
      (dispatchRender pid pThrows dis dThrows).loggedDefaultFailure = true ∧
      (dispatchRender pid pThrows dis dThrows).fallbackCalls = 1) ∧
    (∀ (q : String) (a b c : Bool), (dispatchRender q a b c).escaped = false) := by
  subst h1 h3
  have hbne : (pid != "default") = true := by simpa using h2
  refine ⟨?_, fun hdt => ?_, ?_⟩
  · cases dThrows <;> simp [dispatchRender, hbne]
  · subst hdt
    simp [dispatchRender, hbne]
  · intro q a b c
    cases a <;> cases b <;> cases c <;> simp [dispatchRender] <;> split <;> rfl

/-- Witness for C2: a throwing custom provider with fallback enabled and a
default provider that also throws. -/
theorem C2_witness :
    (dispatchRender "custom" true false true).fallbackCalls = 1 ∧
    (true = true →
      (dispatchRender "custom" true false true).loggedDefaultFailure = true ∧
      (dispatchRender "custom" true false true).fallbackCalls = 1) ∧
    (∀ (q : String) (a b c : Bool), (dispatchRender q a b c).escaped = false) :=
  C2_render_fallback "custom" true false true rfl (by decide) rfl

/-- Hover tracking state of the page composable (`previousHoverState` and
`previousHoveredAnnotation`). -/
structure HoverState where
  prevHover : Bool
  prevAnnot : Option OverlayAnnot
deriving DecidableEq, Repr

/-- Observable side effects of one `handleCanvasMouseMove` call: whether
the overlay canvas was cleared, whether the HTML overlays were removed
(the teardown), and whether the hover highlight plus render dispatch ran
(the setup). -/
structure MoveActions where
  clearedOverlayCanvas : Bool
  clearedHtmlOverlays : Bool
  drewHoverEffect : Bool
deriving DecidableEq, Repr

/-- The empty action record: nothing redrawn, no overlay touched. -/
def noActions : MoveActions :=
  { clearedOverlayCanvas := false, clearedHtmlOverlays := false, drewHoverEffect := false }

/-- One pointer-move step (`handleCanvasMouseMove` in `usePdf`): hit-test
the point, and only when the hover flag or the hit record changed, clear
the overlay canvas, clear HTML overlays unless still over the same record,
redraw the hover effect when over a record, and update the tracking state.
Otherwise do nothing. -/
def handleCanvasMouseMove (index : List HitEntry) (st : HoverState) (x y : ℚ) :
    HoverState × MoveActions :=
  let hit := getAnnotAtPoint index x y
  let isOver := hit.isSome
  let current := if isOver then hit else none
  if st.prevHover ≠ isOver ∨ st.prevAnnot ≠ current then
    (⟨isOver, current⟩,
      { clearedOverlayCanvas := true,
        clearedHtmlOverlays :=
          if isOver = false then true
          else if st.prevAnnot ≠ current then true else false,
        drewHoverEffect := isOver })
  else (st, noActions)

/-- Sequential processing of pointer-move events, collecting per-event
actions. -/
def runMoves (index : List HitEntry) : HoverState → List (ℚ × ℚ) →
    HoverState × List MoveActions
  | st, [] => (st, [])
  | st, q :: rest =>
      let r := handleCanvasMouseMove index st q.1 q.2
      let r2 := runMoves index r.1 rest
      (r2.1, r.2 :: r2.2)

theorem handleMove_state (index : List HitEntry) (st : HoverState) (x y : ℚ) :
    (handleCanvasMouseMove index st x y).1
      = ⟨(getAnnotAtPoint index x y).isSome, getAnnotAtPoint index x y⟩ := by
  have hcur : (if (getAnnotAtPoint index x y).isSome then getAnnotAtPoint index x y
      else none) = getAnnotAtPoint index x y := by
    cases getAnnotAtPoint index x y <;> simp
  unfold handleCanvasMouseMove
  simp only [hcur]
  split
  · rfl
  · next hcond =>
      push_neg at hcond
      cases st
      simp only at hcond
      simp [hcond.1, hcond.2]

theorem handleMove_noop (index : List HitEntry) (st : HoverState) (x y : ℚ)
    (h1 : st.prevHover = (getAnnotAtPoint index x y).isSome)
    (h2 : st.prevAnnot = getAnnotAtPoint index x y) :
    handleCanvasMouseMove index st x y = (st, noActions) := by
  have hcur : (if (getAnnotAtPoint index x y).isSome then getAnnotAtPoint index x y
      else none) = getAnnotAtPoint index x y := by
    cases getAnnotAtPoint index x y <;> simp
  unfold handleCanvasMouseMove
  simp only [hcur]
  rw [if_neg]
  push_neg
  exact ⟨h1, h2⟩

theorem runMoves_noop (index : List HitEntry) (a : Option OverlayAnnot)
    (pts : List (ℚ × ℚ)) :
    ∀ st : HoverState, st = ⟨a.isSome, a⟩ →
    (∀ q ∈ pts, getAnnotAtPoint index q.1 q.2 = a) →
    runMoves index st pts = (st, List.replicate pts.length noActions) := by
  induction pts with
  | nil => intro st hst hpts; simp [runMoves]
  | cons q rest ih =>
      intro st hst hpts
      have hq : getAnnotAtPoint index q.1 q.2 = a := hpts q (by simp)
      have hnoop := handleMove_noop index st q.1 q.2
        (by rw [hst, hq]) (by rw [hst, hq])
      have hrest := ih st hst (fun p hp => hpts p (by simp [hp]))
      simp [runMoves, hnoop, hrest, List.replicate_succ]

/-- C7. Redraw suppression: after one pointer-move has been processed,
every further pointer-move whose hit-tested record is unchanged (same
record, or consistently none) performs zero redraw or overlay actions;
a change of the hit-tested record to a different record performs exactly
one teardown (overlay canvas cleared and HTML overlays removed) plus one
setup (hover highlight drawn and render dispatched); a change to a hit
miss performs the teardown without the setup. -/
theorem C7_redraw_suppression :
    (∀ (index : List HitEntry) (st : HoverState) (x y : ℚ) (pts : List (ℚ × ℚ)),
      (∀ q ∈ pts, getAnnotAtPoint index q.1 q.2 = getAnnotAtPoint index x y) →
      (runMoves index (handleCanvasMouseMove index st x y).1 pts).2
        = List.replicate pts.length noActions) ∧
    (∀ (index : List HitEntry) (st : HoverState) (x y : ℚ) (a b : OverlayAnnot),
      st.prevHover = true → st.prevAnnot = some a →
      getAnnotAtPoint index x y = some b → a ≠ b →
      handleCanvasMouseMove index st x y
        = (⟨true, some b⟩, ⟨true, true, true⟩)) ∧
    (∀ (index : List HitEntry) (st : HoverState) (x y : ℚ) (a : OverlayAnnot),
      st.prevHover = true → st.prevAnnot = some a →
      getAnnotAtPoint index x y = none →
      handleCanvasMouseMove index st x y = (⟨false, none⟩, ⟨true, true, false⟩)) := by
  refine ⟨?_, ?_, ?_⟩
  · intro index st x y pts hpts
    have hst := handleMove_state index st x y
    have := runMoves_noop index (getAnnotAtPoint index x y) pts
      (handleCanvasMouseMove index st x y).1 hst hpts
    rw [this]
  · intro index st x y a b hh ha hb hab
    unfold handleCanvasMouseMove
    rw [hb]
    have hne : st.prevAnnot ≠ some b := by
      rw [ha]
      simp [hab]
    simp [hne]
  · intro index st x y a hh ha hmiss
    unfold handleCanvasMouseMove
    rw [hmiss]
    simp [hh]

theorem square_hit48 :
    getAnnotAtPoint (drawAnnots [squareAnnot] 0 96) 48 48 = some squareAnnot := by
  norm_num [getAnnotAtPoint, drawAnnots, getAnnotsForPage, squareAnnot, createAnnotPath,
    convertCoordinates, flattenPoints, List.filter, List.find?, isPointInPolygon, pairUp,
    rotateRight, edgeCrosses, annotKey, show ("1" == toString (1 : ℕ)) = true from rfl]

theorem square_miss200 :
    getAnnotAtPoint (drawAnnots [squareAnnot] 0 96) 200 200 = none := by
  norm_num [getAnnotAtPoint, drawAnnots, getAnnotsForPage, squareAnnot, createAnnotPath,
    convertCoordinates, flattenPoints, List.filter, List.find?, isPointInPolygon, pairUp,
    rotateRight, edgeCrosses, annotKey, show ("1" == toString (1 : ℕ)) = true from rfl]

/-- A second overlay record, used as the previous hover target. -/
def otherAnnot : OverlayAnnot :=
  { page := "1", content := "other", rect := [5, 5, 6, 5, 6, 6, 5, 6], line := 7 }

/-- Witness for C7: suppression of a repeated hit on the unit square,
one teardown-plus-setup on a change of hover target, and teardown on a
hit miss, all over the concrete single-square index. -/
theorem C7_witness :
    (runMoves (drawAnnots [squareAnnot] 0 96)
        (handleCanvasMouseMove (drawAnnots [squareAnnot] 0 96) ⟨false, none⟩ 48 48).1
        [(48, 48)]).2 = List.replicate 1 noActions ∧
    handleCanvasMouseMove (drawAnnots [squareAnnot] 0 96) ⟨true, some otherAnnot⟩ 48 48
      = (⟨true, some squareAnnot⟩, ⟨true, true, true⟩) ∧
    handleCanvasMouseMove (drawAnnots [squareAnnot] 0 96) ⟨true, some squareAnnot⟩ 200 200
      = (⟨false, none⟩, ⟨true, true, false⟩) := by
  refine ⟨C7_redraw_suppression.1 _ _ 48 48 _ ?_,
    C7_redraw_suppression.2.1 _ _ 48 48 otherAnnot squareAnnot rfl rfl square_hit48
      (by decide),
    C7_redraw_suppression.2.2 _ _ 200 200 squareAnnot rfl rfl square_miss200⟩
  intro q hq
  rw [List.mem_singleton] at hq
  subst hq
  rfl

/-- Blank-content check of `drawAnnotationText`: the source skips when
`!annotation.content || !annotation.content.trim()`, i.e. when the content
is empty or trims to the empty string — equivalently, when every character
is whitespace. -/
def isBlank (s : String) : Bool :=
  s.data.all (fun c => c.isWhitespace)

/-- Leftmost x over the transformed points (`Math.min` spread of the
source); the empty case is unreachable behind the length guard. -/
def minXOf : List (ℚ × ℚ) → ℚ
  | [] => 0
  | p :: rest => rest.foldl (fun m q => min m q.1) p.1

/-- Rightmost x over the transformed points. -/
def maxXOf : List (ℚ × ℚ) → ℚ
  | [] => 0
  | p :: rest => rest.foldl (fun m q => max m q.1) p.1

/-- Topmost y over the transformed points. -/
def minYOf : List (ℚ × ℚ) → ℚ
  | [] => 0
  | p :: rest => rest.foldl (fun m q => min m q.2) p.2

/-- Bottommost y over the transformed points. -/
def maxYOf : List (ℚ × ℚ) → ℚ
  | [] => 0
  | p :: rest => rest.foldl (fun m q => max m q.2) p.2

/-- Outcome of one `drawAnnotationText` call. The skip constructors
correspond to the early returns of the source; `rendered` records the
provider dispatch of the non-degenerate path. The function is total, so no
exception ever escapes. The optional simple-HTML-overlay branch (active
only when the host passes an `htmlAnnotation` prop) sits after all the
guards and before provider resolution and is not modelled here. -/
inductive RenderOutcome where
  | skippedNoContent
  | skippedFewPoints
  | skippedDegenerateRect
  | rendered (r : DispatchResult)
deriving DecidableEq, Repr

/-- The render entry point `drawAnnotationText` (current composable):
skip blank content, then convert the rect and skip when fewer than three
points result, then skip when the transformed bounding box has
non-positive width or height, and only then resolve and dispatch the
provider (the dispatch behaviour is abstracted by the Bool inputs). -/
def drawAnnotationText (a : OverlayAnnot) (effectiveDpi : ℚ) (providerId : String)
    (providerThrows disableFallback defaultThrows : Bool) : RenderOutcome :=
  if isBlank a.content then .skippedNoContent
  else
    let points := convertCoordinates a.rect effectiveDpi
    if points.length < 3 then .skippedFewPoints
    else
      let w := maxXOf points - minXOf points
      let h := maxYOf points - minYOf points
      if w ≤ 0 ∨ h ≤ 0 then .skippedDegenerateRect
      else .rendered (dispatchRender providerId providerThrows disableFallback defaultThrows)

/-- Overlay record with three coincident points: fewer than 3 distinct
corners and a zero-size bounding box. -/
def degenAnnot : OverlayAnnot :=
  { page := "1", content := "x", rect := [0, 0, 0, 0, 0, 0], line := 2 }

/-- C9 counterexample: the degenerate record is skipped by the render
entry point, yet `drawAnnotations` still stores it in the hit-test
polygon index — the claim's exclusion of degenerate records from the index
is false. -/
theorem C9_counterexample :
    drawAnnotationText degenAnnot 96 "default" false false false
        = RenderOutcome.skippedDegenerateRect ∧
    (drawAnnots [degenAnnot] 0 96).map HitEntry.annot = [degenAnnot] := by
  constructor
  · norm_num [drawAnnotationText, degenAnnot, convertCoordinates, minXOf, maxXOf,
      minYOf, maxYOf, show isBlank "x" = false from by decide]
  · simp [drawAnnots, getAnnotsForPage, degenAnnot, List.filter,
      show ("1" == toString (1 : ℕ)) = true from rfl]

/-- C9 (amended). Degenerate geometry is skipped without error by the
render entry point: an annotation whose rect yields fewer than three
points, or whose transformed bounding box has non-positive width or
height, never reaches provider dispatch (and the entry point is total, so
nothing is thrown). However the degenerate annotation is NOT excluded from
the hit-test polygon index: `drawAnnotations` stores one entry for every
annotation of the page, with no degeneracy filter. -/
theorem C9_degenerate_skipped_but_indexed :
    (∀ (a : OverlayAnnot) (d : ℚ) (pid : String) (pt dis dt : Bool),
      ((convertCoordinates a.rect d).length < 3 ∨
        maxXOf (convertCoordinates a.rect d) - minXOf (convertCoordinates a.rect d) ≤ 0 ∨
        maxYOf (convertCoordinates a.rect d) - minYOf (convertCoordinates a.rect d) ≤ 0) →
      ∀ r, drawAnnotationText a d pid pt dis dt ≠ RenderOutcome.rendered r) ∧
    (∀ (anns : List OverlayAnnot) (page : ℕ) (d : ℚ),
      (drawAnnots anns page d).map HitEntry.annot = getAnnotsForPage anns page) := by
  constructor
  · intro a d pid pt dis dt h r
    unfold drawAnnotationText
    by_cases hb : isBlank a.content = true
    · simp [hb]
    · by_cases hlen : (convertCoordinates a.rect d).length < 3
      · simp [hb, hlen]
      · have hwh : maxXOf (convertCoordinates a.rect d)
              - minXOf (convertCoordinates a.rect d) ≤ 0 ∨
            maxYOf (convertCoordinates a.rect d)
              - minYOf (convertCoordinates a.rect d) ≤ 0 := by
          rcases h with h | h | h
          · exact absurd h hlen
          · exact Or.inl h
          · exact Or.inr h
        rw [sub_nonpos, sub_nonpos] at hwh
        simp [hb, hlen, hwh]
  · intro anns page d
    rw [drawAnnots, List.map_map]
    have hcomp : (HitEntry.annot ∘ fun a =>
        (⟨annotKey a, createAnnotPath a.rect d, a⟩ : HitEntry)) = id := by
      funext a
      rfl
    rw [hcomp, List.map_id]

/-- Witness for C9: the zero-size record is not dispatched to any
provider, and the index of its page still lists it. -/
theorem C9_witness :
    (∀ r, drawAnnotationText degenAnnot 96 "default" false false false
        ≠ RenderOutcome.rendered r) ∧
    (drawAnnots [degenAnnot] 0 96).map HitEntry.annot
        = getAnnotsForPage [degenAnnot] 0 := by
  constructor
  · exact C9_degenerate_skipped_but_indexed.1 degenAnnot 96 "default" false false false
      (Or.inr (Or.inl (by norm_num [degenAnnot, convertCoordinates, minXOf, maxXOf])))
  · exact C9_degenerate_skipped_but_indexed.2 [degenAnnot] 0 96

end PdfViewer
